import Mathlib

/-!
Verification development for the e-Paper album network sync engine
(`EPD_Album.c`).  The C program is shallowly embedded: the TCP receive
side is an oracle list of network events (data chunks, orderly close,
transport error), bytes are `Nat` values below 256, and each socket
function becomes a pure Lean function from its environment to a record
of its observable outputs (return code, buffer contents, out-parameters,
socket open/close counts, remaining network events).
-/

namespace EPDAlbum

/-- `RECV_BUFFER_SIZE` from EPD_Album.c. -/
def RECV_BUFFER_SIZE : Nat := 1024

/-- `LOOP_INTERVAL_MS` from EPD_Album.c. -/
def LOOP_INTERVAL_MS : Nat := 180000

/-- `IMAGE_BUFFER_SIZE` from EPD_Album.c (400x600 six-color frame). -/
def IMAGE_BUFFER_SIZE : Nat := 120000

/-- One observable outcome of a blocking `tal_net_recv` call:
either a data chunk arrives, the peer closes the connection
(recv returns 0), or the transport reports an error/timeout
(recv returns a negative value). -/
inductive NetEvent
  | chunk (bs : List Nat)
  | close
  | fail
  deriving Repr, DecidableEq

/-- Result of one `tal_net_recv` call: some bytes (possibly zero,
meaning orderly close) or a transport error. -/
inductive RecvOut
  | bytes (bs : List Nat)
  | err
  deriving Repr, DecidableEq

/-- Model of `tal_net_recv fd buf req`: consume the next network event.
A chunk larger than the requested length is split; the unread remainder
stays buffered at the head of the event list, exactly as TCP buffers
undelivered bytes.  An exhausted event list behaves as an orderly close. -/
def netRecv : List NetEvent → Nat → RecvOut × List NetEvent
  | [], _ => (.bytes [], [])
  | .chunk bs :: rest, req =>
      if bs.length ≤ req then (.bytes bs, rest)
      else (.bytes (bs.take req), .chunk (bs.drop req) :: rest)
  | .close :: rest, _ => (.bytes [], rest)
  | .fail :: rest, _ => (.err, rest)

/-- The byte stream the peer delivers before closing or faulting. -/
def flattenEvents : List NetEvent → List Nat
  | [] => []
  | .chunk bs :: rest => bs ++ flattenEvents rest
  | .close :: _ => []
  | .fail :: _ => []

/-- An event that delivers at least one byte. -/
def goodEvent : NetEvent → Bool
  | .chunk bs => !bs.isEmpty
  | _ => false

/-- Every event delivers data (no close, no error, no empty chunk). -/
def goodEvents (evs : List NetEvent) : Bool := evs.all goodEvent

/-- Length of the first chunk of the event list (0 if the list does not
start with a chunk). -/
def headChunkLen : List NetEvent → Nat
  | .chunk bs :: _ => bs.length
  | _ => 0

/-- State of the receive oracle after the 4-byte header has been read
from a first chunk `c0` holding at least 4 bytes: a chunk of exactly 4
bytes is consumed whole, a longer one leaves its tail buffered. -/
def afterHeader (c0 : List Nat) (rest : List NetEvent) : List NetEvent :=
  if c0.length ≤ 4 then rest else .chunk (c0.drop 4) :: rest

/-- Environment of one socket function call: whether socket creation,
address parsing, connect and send succeed, and the receive-side oracle. -/
structure Env where
  socketOk : Bool
  addrOk : Bool
  connectOk : Bool
  sendOk : Bool
  events : List NetEvent
  deriving Repr, DecidableEq

/-- Observable output of `socket_send_command`. -/
structure CmdOut where
  ret : Int
  response : List Nat
  opened : Nat
  closed : Nat
  evsLeft : List NetEvent
  deriving Repr, DecidableEq

/-- Shallow embedding of `socket_send_command` (EPD_Album.c lines
121-188): validate arguments, create a socket, set timeouts, resolve
the address, connect, send the command, then perform a single
`tal_net_recv` of at most `respSize - 1` bytes.  A positive receive
NUL-terminates and succeeds; a zero-byte receive is logged as a peer
close and also succeeds; a negative receive fails.  Every path after
socket creation closes the socket exactly once. -/
def socket_send_command (cmdNull respNull : Bool) (respSize : Nat) (env : Env) : CmdOut :=
  if cmdNull || respNull || respSize = 0 then ⟨-1, [], 0, 0, env.events⟩
  else if !env.socketOk then ⟨-1, [], 0, 0, env.events⟩
  else if !env.addrOk then ⟨-1, [], 1, 1, env.events⟩
  else if !env.connectOk then ⟨-1, [], 1, 1, env.events⟩
  else if !env.sendOk then ⟨-1, [], 1, 1, env.events⟩
  else
    match netRecv env.events (respSize - 1) with
    | (.bytes bs, evs') => ⟨0, bs, 1, 1, evs'⟩
    | (.err, evs') => ⟨-1, [], 1, 1, evs'⟩

/-- Observable output of `socket_get_image_data`.  `dataSize = none`
models the out-parameter `*data_size` being left unwritten. -/
structure FetchOut where
  ret : Int
  buf : List Nat
  dataSize : Option Nat
  opened : Nat
  closed : Nat
  evsLeft : List NetEvent
  deriving Repr, DecidableEq

/-- Big-endian decoding of the 4-byte length header, as computed by
`(header[0] << 24) | (header[1] << 16) | (header[2] << 8) | header[3]`
on bytes below 256. -/
def decodeBE32 : List Nat → Nat
  | [a, b, c, d] => a * 2 ^ 24 + b * 2 ^ 16 + c * 2 ^ 8 + d
  | _ => 0

/-- Big-endian encoding of a 32-bit length as four bytes. -/
def be32 (n : Nat) : List Nat :=
  [n / 2 ^ 24 % 256, n / 2 ^ 16 % 256, n / 2 ^ 8 % 256, n % 256]

/-- The receive loop of `socket_get_image_data` (lines 580-593):
while fewer than `r` bytes remain to be read, request
`min remaining 4096` bytes; a zero-byte or failed receive aborts the
attempt, otherwise the bytes are appended at the current offset. -/
def recvImageLoop (evs : List NetEvent) (r : Nat) (acc : List Nat) :
    Bool × List Nat × List NetEvent :=
  if _hr : r = 0 then (true, acc, evs)
  else
    match netRecv evs (min r 4096) with
    | (.bytes [], evs') => (false, acc, evs')
    | (.bytes (b :: bs), evs') =>
        recvImageLoop evs' (r - (b :: bs).length) (acc ++ (b :: bs))
    | (.err, evs') => (false, acc, evs')
termination_by r
decreasing_by simp; omega

/-- Shallow embedding of `socket_get_image_data` (EPD_Album.c lines
509-601): after connecting and sending `get_c`, a single receive of 4
bytes must return exactly 4 bytes (the big-endian length header); a
declared length above `IMAGE_BUFFER_SIZE` is rejected before any frame
byte is read; otherwise `*data_size` is set to the declared length and
the chunked receive loop runs.  Every path after socket creation closes
the socket exactly once. -/
def socket_get_image_data (dataNull sizeNull : Bool) (env : Env) : FetchOut :=
  if dataNull || sizeNull then ⟨-1, [], none, 0, 0, env.events⟩
  else if !env.socketOk then ⟨-1, [], none, 0, 0, env.events⟩
  else if !env.addrOk then ⟨-1, [], none, 1, 1, env.events⟩
  else if !env.connectOk then ⟨-1, [], none, 1, 1, env.events⟩
  else if !env.sendOk then ⟨-1, [], none, 1, 1, env.events⟩
  else
    match netRecv env.events 4 with
    | (.bytes hdr, evs₁) =>
        if hdr.length ≠ 4 then ⟨-1, [], none, 1, 1, evs₁⟩
        else if decodeBE32 hdr > IMAGE_BUFFER_SIZE then ⟨-1, [], none, 1, 1, evs₁⟩
        else
          let res := recvImageLoop evs₁ (decodeBE32 hdr) []
          if res.1 then ⟨0, res.2.1, some (decodeBE32 hdr), 1, 1, res.2.2⟩
          else ⟨-1, res.2.1, some (decodeBE32 hdr), 1, 1, res.2.2⟩
    | (.err, evs₁) => ⟨-1, [], none, 1, 1, evs₁⟩

/-! ## Response parsing (EPD_Album.c lines 301-360) -/

/-- Model of `strstr(hay, needle)`: index of the first occurrence of
`needle` in `hay`, or `none`. -/
def strstrIdx (needle : List Char) : List Char → Option Nat
  | [] => if needle.isPrefixOf ([] : List Char) then some 0 else none
  | c :: t =>
      if needle.isPrefixOf (c :: t) then some 0
      else (strstrIdx needle t).map (· + 1)

/-- Model of `strchr(s + i, ch)` for a non-NUL `ch`: index of the first
occurrence of `ch` in `s` at or after position `i`, or `none`. -/
def strchrIdx (s : List Char) (i : Nat) (ch : Char) : Option Nat :=
  match (s.drop i).findIdx? (· == ch) with
  | none => none
  | some j => some (i + j)

/-- Model of C `isspace` for the characters sscanf skips. -/
def isSpaceC (c : Char) : Bool :=
  c = ' ' || c = '\t' || c = '\n' || Char.ofNat 11 = c || Char.ofNat 12 = c || c = '\r'

/-- Skip leading whitespace, as a whitespace directive in an sscanf
format string (and the `%d` conversion itself) does. -/
def skipWs : List Char → List Char
  | [] => []
  | c :: t => if isSpaceC c then skipWs t else c :: t

/-- Longest run of decimal digits at the front of the text. -/
def takeDigits : List Char → List Char
  | [] => []
  | c :: t => if c.isDigit then c :: takeDigits t else []

/-- Numeric value of a digit string. -/
def natOfDigits (ds : List Char) : Nat :=
  ds.foldl (fun a c => a * 10 + (c.toNat - '0'.toNat)) 0

/-- Model of the `%d` conversion of sscanf: an optional sign followed by
at least one decimal digit; anything else is a matching failure. -/
def scanDecInt (s : List Char) : Option Int :=
  match s with
  | [] => none
  | c :: t =>
      if c = '-' then
        if takeDigits t = [] then none else some (-(natOfDigits (takeDigits t) : Int))
      else if c = '+' then
        if takeDigits t = [] then none else some ((natOfDigits (takeDigits t) : Int))
      else
        if takeDigits s = [] then none else some ((natOfDigits (takeDigits s) : Int))

/-- Model of `sscanf(p, "\"name\" : %d", &v)` where `p` is the pointer
returned by `strstr`: match the quoted field marker literally, skip
whitespace, match `:`, then convert a decimal integer. -/
def sscanfFieldInt (p marker : List Char) : Option Int :=
  if marker.isPrefixOf p then
    match skipWs (p.drop marker.length) with
    | [] => none
    | c :: rest => if c = ':' then scanDecInt (skipWs rest) else none
  else none

/-- The integer-field lookup used for `current_index`, `total` and
`index`: `strstr` for the quoted marker, then `sscanf` from there.
`none` models "field absent / no assignment performed". -/
def find_int_field (text marker : List Char) : Option Int :=
  match strstrIdx marker text with
  | none => none
  | some p => sscanfFieldInt (text.drop p) marker

/-- The quoted `"total"` field marker. -/
def totalMarker : List Char := "\"total\"".toList

/-- Effect of the `total` parse block (lines 312-315) on the previous
value of `g_image_total`: the variable is assigned only when `strstr`
finds the marker and `sscanf` converts a value. -/
def update_g_total (g : Int) (response : List Char) : Int :=
  match find_int_field response totalMarker with
  | none => g
  | some v => v

/-- Capacity of the `filename[256]` buffer in the Info step. -/
def FILENAME_CAP : Nat := 256

/-- Shallow embedding of the filename extraction (lines 348-360):
`p = strstr(response, "\"filename\"")`, `start = strchr(p, '"')`,
`end = strchr(start + 1, '"')`; if `end > start + 1` and the length
fits the buffer, the characters strictly between `start` and `end` are
copied out; otherwise the buffer keeps its zero initialisation. -/
def parse_filename (response : List Char) : List Char :=
  match strstrIdx ("\"filename\"".toList) response with
  | none => []
  | some p =>
      match strchrIdx response p '"' with
      | none => []
      | some s =>
          match strchrIdx response (s + 1) '"' with
          | none => []
          | some e =>
              if s + 1 < e then
                let len := e - s - 1
                if len < FILENAME_CAP - 1 then (response.drop (s + 1)).take len
                else []
              else []

/-! ## The sync loop (EPD_test_net, lines 228-438) and WiFi layer -/

/-- Externally visible actions of one pass of the main loop body. -/
inductive Act
  | pollLink
  | cmd (c : String)
  | alloc
  | free
  | devInit
  | render
  | delay (ms : Nat)
  deriving Repr, DecidableEq

/-- Outcomes of the fallible steps of one loop iteration. -/
structure CycleEnv where
  updateOk : Bool
  infoOk : Bool
  allocOk : Bool
  fetchOk : Bool
  devInitOk : Bool
  deriving Repr, DecidableEq

/-- Trace of one loop iteration together with whether the body exits
the loop (a `return` or `break`, of which the C body has none). -/
structure CycleOut where
  trace : List Act
  exits : Bool
  deriving Repr, DecidableEq

/-- Shallow embedding of one iteration of the `while (1)` body of
`EPD_test_net` (lines 286-431).  Each failing step logs, sleeps for
`LOOP_INTERVAL_MS` and `continue`s; the success path renders, waits for
the refresh, puts the panel to sleep, frees the buffer and sleeps.
No path reads `g_wifi_connected` and no path leaves the loop. -/
def cycle (env : CycleEnv) : CycleOut :=
  if !env.updateOk then
    ⟨[.cmd "update", .delay LOOP_INTERVAL_MS], false⟩
  else if !env.infoOk then
    ⟨[.cmd "update", .cmd "info", .delay LOOP_INTERVAL_MS], false⟩
  else if !env.allocOk then
    ⟨[.cmd "update", .cmd "info", .alloc, .delay LOOP_INTERVAL_MS], false⟩
  else if !env.fetchOk then
    ⟨[.cmd "update", .cmd "info", .alloc, .cmd "get_c", .free,
      .delay LOOP_INTERVAL_MS], false⟩
  else if !env.devInitOk then
    ⟨[.cmd "update", .cmd "info", .alloc, .cmd "get_c", .devInit, .free,
      .delay LOOP_INTERVAL_MS], false⟩
  else
    ⟨[.cmd "update", .cmd "info", .alloc, .cmd "get_c", .devInit, .render,
      .delay 30000, .delay 500, .free, .delay LOOP_INTERVAL_MS], false⟩

/-- WiFi events delivered to `wifi_event_callback`. -/
inductive WfEvent
  | connected
  | connectFailed
  | disconnected
  | other
  deriving Repr, DecidableEq

/-- The two global connectivity flags. -/
structure WifiFlags where
  wifiConnected : Bool
  socketConnected : Bool
  deriving Repr, DecidableEq

/-- Shallow embedding of `wifi_event_callback` (lines 57-90): a
disconnect clears both flags; no event terminates anything. -/
def wifi_event_callback : WfEvent → WifiFlags → WifiFlags
  | .connected, st => { st with wifiConnected := true }
  | .connectFailed, st => { st with wifiConnected := false }
  | .disconnected, _ => ⟨false, false⟩
  | .other, st => st

/-- The bounded startup poll of `wifi_connect_wait` (lines 96-112):
up to `t` one-second polls of `g_wifi_connected`, whose successive
values are supplied by the oracle `reads`; returns 0 on success and
-1 once the budget is exhausted. -/
def wifi_wait_loop : Nat → List Bool → Int
  | 0, _ => -1
  | t + 1, reads => if reads.headD false then 0 else wifi_wait_loop t reads.tail

/-- `wifi_connect_wait` polls at most 30 times. -/
def wifi_connect_wait (reads : List Bool) : Int := wifi_wait_loop 30 reads

/-! ## Helper lemmas about the receive model -/

theorem netRecv_chunk_le {bs : List Nat} {rest : List NetEvent} {req : Nat}
    (h : bs.length ≤ req) : netRecv (.chunk bs :: rest) req = (.bytes bs, rest) := by
  simp [netRecv, h]

theorem netRecv_chunk_gt {bs : List Nat} {rest : List NetEvent} {req : Nat}
    (h : req < bs.length) :
    netRecv (.chunk bs :: rest) req = (.bytes (bs.take req), .chunk (bs.drop req) :: rest) := by
  simp [netRecv, Nat.not_le.mpr h]

theorem netRecv_bytes_len {evs evs' : List NetEvent} {req : Nat} {bs : List Nat}
    (h : netRecv evs req = (.bytes bs, evs')) : bs.length ≤ req := by
  match evs with
  | [] => simp [netRecv] at h; simp [h.1]
  | .chunk cs :: rest =>
      by_cases hle : cs.length ≤ req
      · rw [netRecv_chunk_le hle] at h
        cases h; omega
      · rw [netRecv_chunk_gt (Nat.not_le.mp hle)] at h
        cases h; simp
  | .close :: rest => simp [netRecv] at h; simp [h.1]
  | .fail :: rest => simp [netRecv] at h

theorem recvImageLoop_zero (evs : List NetEvent) (acc : List Nat) :
    recvImageLoop evs 0 acc = (true, acc, evs) := by
  unfold recvImageLoop
  simp

theorem recvImageLoop_stop {evs evs' : List NetEvent} {r : Nat} (acc : List Nat)
    (hr : r ≠ 0)
    (h : netRecv evs (min r 4096) = (.bytes [], evs') ∨
         netRecv evs (min r 4096) = (.err, evs')) :
    recvImageLoop evs r acc = (false, acc, evs') := by
  unfold recvImageLoop
  rcases h with h | h <;> simp [hr, h]

theorem recvImageLoop_step {evs evs' : List NetEvent} {r : Nat} (acc : List Nat)
    {b : Nat} {bs : List Nat} (hr : r ≠ 0)
    (h : netRecv evs (min r 4096) = (.bytes (b :: bs), evs')) :
    recvImageLoop evs r acc = recvImageLoop evs' (r - (b :: bs).length) (acc ++ (b :: bs)) := by
  conv_lhs => unfold recvImageLoop
  simp [hr, h]

theorem take_glue {α : Type} (l1 l2 : List α) (k r : Nat)
    (hk : k ≤ l1.length) (hkr : k ≤ r) :
    (l1 ++ l2).take r = l1.take k ++ (l1.drop k ++ l2).take (r - k) := by
  have h1 : (l1 ++ l2).take r = (l1 ++ l2).take k ++ ((l1 ++ l2).drop k).take (r - k) := by
    rw [← List.take_add]
    congr 1
    omega
  rw [h1, List.take_append_of_le_length hk, List.drop_append_of_le_length hk]

theorem goodEvents_cons {e : NetEvent} {evs : List NetEvent}
    (h : goodEvents (e :: evs) = true) : goodEvent e = true ∧ goodEvents evs = true := by
  simpa [goodEvents] using h

theorem goodEvent_chunk {bs : List Nat} (h : bs ≠ []) : goodEvent (.chunk bs) = true := by
  simp [goodEvent, List.isEmpty_iff, h]

theorem goodEvents_cons_intro {e : NetEvent} {evs : List NetEvent}
    (h1 : goodEvent e = true) (h2 : goodEvents evs = true) :
    goodEvents (e :: evs) = true := by
  simp [goodEvents, List.all_cons, h1]
  simpa [goodEvents] using h2

/-- Completeness of the receive loop: over a stream of nonempty data
chunks holding at least `r` bytes, the loop succeeds and appends the
first `r` delivered bytes, whatever the fragmentation. -/
theorem recvImageLoop_complete (r : Nat) :
    ∀ (evs : List NetEvent) (acc : List Nat),
      goodEvents evs = true → r ≤ (flattenEvents evs).length →
      (recvImageLoop evs r acc).1 = true ∧
      (recvImageLoop evs r acc).2.1 = acc ++ (flattenEvents evs).take r := by
  induction r using Nat.strong_induction_on with
  | _ r ih =>
    intro evs acc hg hlen
    rcases Nat.eq_zero_or_pos r with hr | hr
    · subst hr; simp [recvImageLoop_zero]
    · match evs with
      | [] => simp [flattenEvents] at hlen; omega
      | .close :: rest => simp [goodEvents, goodEvent] at hg
      | .fail :: rest => simp [goodEvents, goodEvent] at hg
      | .chunk [] :: rest => simp [goodEvents, goodEvent] at hg
      | .chunk (b :: bs) :: rest =>
        obtain ⟨hge, hgrest⟩ := goodEvents_cons hg
        rw [flattenEvents] at hlen ⊢
        have hlenN : r ≤ (b :: bs).length + (flattenEvents rest).length := by
          rw [List.length_append] at hlen; exact hlen
        by_cases hle : (b :: bs).length ≤ min r 4096
        · rw [recvImageLoop_step acc (by omega) (netRecv_chunk_le hle)]
          have hkr : (b :: bs).length ≤ r := le_trans hle (min_le_left _ _)
          have hrec := ih (r - (b :: bs).length) (by simp only [List.length_cons]; omega)
            rest (acc ++ (b :: bs)) hgrest (by omega)
          refine ⟨hrec.1, ?_⟩
          rw [hrec.2, take_glue (b :: bs) (flattenEvents rest) (b :: bs).length r
            le_rfl hkr, List.take_length, List.drop_length]
          simp
        · have hgt : min r 4096 < (b :: bs).length := Nat.not_le.mp hle
          have hq1 : 1 ≤ min r 4096 := by omega
          obtain ⟨q', hq'⟩ : ∃ q', min r 4096 = q' + 1 := ⟨min r 4096 - 1, by omega⟩
          have htake : (b :: bs).take (min r 4096) = b :: bs.take q' := by
            rw [hq', List.take_succ_cons]
          rw [recvImageLoop_step acc (by omega)
            (by rw [netRecv_chunk_gt hgt, htake])]
          rw [← htake]
          have hlq : ((b :: bs).take (min r 4096)).length = min r 4096 := by
            rw [List.length_take]; omega
          rw [hlq]
          have hdrop_ne : (b :: bs).drop (min r 4096) ≠ [] := by
            intro hnil
            rw [List.drop_eq_nil_iff] at hnil
            omega
          have hgood' : goodEvents (.chunk ((b :: bs).drop (min r 4096)) :: rest) = true :=
            goodEvents_cons_intro (goodEvent_chunk hdrop_ne) hgrest
          have hfl : flattenEvents (.chunk ((b :: bs).drop (min r 4096)) :: rest)
              = (b :: bs).drop (min r 4096) ++ flattenEvents rest := rfl
          have hlen' : r - min r 4096 ≤
              (flattenEvents (.chunk ((b :: bs).drop (min r 4096)) :: rest)).length := by
            rw [hfl, List.length_append, List.length_drop]
            omega
          have hrec := ih (r - min r 4096) (by omega)
            (.chunk ((b :: bs).drop (min r 4096)) :: rest)
            (acc ++ (b :: bs).take (min r 4096)) hgood' hlen'
          refine ⟨hrec.1, ?_⟩
          rw [hrec.2, hfl,
            take_glue (b :: bs) (flattenEvents rest) (min r 4096) r (by omega)
              (min_le_left _ _)]
          simp

/-- Exactness of the receive loop: whenever it reports success it has
appended exactly `r` bytes. -/
theorem recvImageLoop_exact (r : Nat) :
    ∀ (evs : List NetEvent) (acc : List Nat),
      (recvImageLoop evs r acc).1 = true →
      ((recvImageLoop evs r acc).2.1).length = acc.length + r := by
  induction r using Nat.strong_induction_on with
  | _ r ih =>
    intro evs acc hok
    rcases Nat.eq_zero_or_pos r with hr | hr
    · subst hr; simp [recvImageLoop_zero]
    · rcases hnet : netRecv evs (min r 4096) with ⟨ro, evs'⟩
      match ro with
      | .bytes [] =>
          rw [recvImageLoop_stop acc (by omega) (Or.inl hnet)] at hok
          simp at hok
      | .bytes (b :: bs) =>
          have hk : (b :: bs).length ≤ r :=
            le_trans (netRecv_bytes_len hnet) (min_le_left _ _)
          rw [recvImageLoop_step acc (by omega) hnet] at hok ⊢
          have hrec := ih (r - (b :: bs).length) (by simp only [List.length_cons]; omega)
            evs' (acc ++ (b :: bs)) hok
          rw [hrec, List.length_append]
          simp only [List.length_cons] at hk ⊢
          omega
      | .err =>
          rw [recvImageLoop_stop acc (by omega) (Or.inr hnet)] at hok
          simp at hok

/-- Truncation: over a stream of nonempty chunks holding fewer than `r`
bytes followed by an orderly close or a transport error, the loop fails
after consuming exactly the delivered bytes. -/
theorem recvImageLoop_truncated (r : Nat) :
    ∀ (pre post : List NetEvent) (bad : NetEvent) (acc : List Nat),
      (bad = .close ∨ bad = .fail) →
      goodEvents pre = true →
      (flattenEvents pre).length < r →
      recvImageLoop (pre ++ bad :: post) r acc = (false, acc ++ flattenEvents pre, post) := by
  induction r using Nat.strong_induction_on with
  | _ r ih =>
    intro pre post bad acc hbad hg hlen
    have hr : r ≠ 0 := by omega
    match pre with
    | [] =>
        rw [flattenEvents] at hlen ⊢
        rcases hbad with hbad | hbad <;> subst hbad
        · rw [recvImageLoop_stop acc hr (Or.inl (show netRecv ([] ++ NetEvent.close :: post)
            (min r 4096) = (RecvOut.bytes [], post) from rfl))]
          simp
        · rw [recvImageLoop_stop acc hr (Or.inr (show netRecv ([] ++ NetEvent.fail :: post)
            (min r 4096) = (RecvOut.err, post) from rfl))]
          simp
    | .close :: pre' => simp [goodEvents, goodEvent] at hg
    | .fail :: pre' => simp [goodEvents, goodEvent] at hg
    | .chunk [] :: pre' => simp [goodEvents, goodEvent] at hg
    | .chunk (b :: bs) :: pre' =>
        obtain ⟨hge, hgpre⟩ := goodEvents_cons hg
        rw [flattenEvents] at hlen ⊢
        have hlenN : (b :: bs).length + (flattenEvents pre').length < r := by
          rw [List.length_append] at hlen; omega
        by_cases hle : (b :: bs).length ≤ min r 4096
        · rw [List.cons_append, recvImageLoop_step acc hr (netRecv_chunk_le hle)]
          rw [ih (r - (b :: bs).length) (by simp only [List.length_cons]; omega) pre' post bad
            (acc ++ (b :: bs)) hbad hgpre (by omega)]
          simp
        · have hgt : min r 4096 < (b :: bs).length := Nat.not_le.mp hle
          have hrpos : 1 ≤ r := by omega
          have hq1 : 1 ≤ min r 4096 := by omega
          obtain ⟨q', hq'⟩ : ∃ q', min r 4096 = q' + 1 := ⟨min r 4096 - 1, by omega⟩
          have htake : (b :: bs).take (min r 4096) = b :: bs.take q' := by
            rw [hq', List.take_succ_cons]
          rw [List.cons_append, recvImageLoop_step acc hr
            (by rw [netRecv_chunk_gt hgt, htake])]
          rw [← htake]
          have hlq : ((b :: bs).take (min r 4096)).length = min r 4096 := by
            rw [List.length_take]; omega
          rw [hlq]
          have hdrop_ne : (b :: bs).drop (min r 4096) ≠ [] := by
            intro hnil
            rw [List.drop_eq_nil_iff] at hnil
            omega
          have hgood' : goodEvents (.chunk ((b :: bs).drop (min r 4096)) :: pre') = true :=
            goodEvents_cons_intro (goodEvent_chunk hdrop_ne) hgpre
          have hfl : flattenEvents (.chunk ((b :: bs).drop (min r 4096)) :: pre')
              = (b :: bs).drop (min r 4096) ++ flattenEvents pre' := rfl
          have hlen' : (flattenEvents (.chunk ((b :: bs).drop (min r 4096)) :: pre')).length <
              r - min r 4096 := by
            rw [hfl, List.length_append, List.length_drop]
            omega
          have hrec := ih (r - min r 4096) (by omega)
            (.chunk ((b :: bs).drop (min r 4096)) :: pre') post bad
            (acc ++ (b :: bs).take (min r 4096)) hbad hgood' hlen'
          rw [show (NetEvent.chunk ((b :: bs).drop (min r 4096)) :: (pre' ++ bad :: post)) =
            (NetEvent.chunk ((b :: bs).drop (min r 4096)) :: pre') ++ bad :: post from rfl]
          rw [hrec, hfl, List.append_assoc,
            ← List.append_assoc ((b :: bs).take (min r 4096)), List.take_append_drop]

/-! ## Helper lemmas about the frame downloader -/

theorem decodeBE32_be32 {n : Nat} (h : n < 2 ^ 32) : decodeBE32 (be32 n) = n := by
  simp only [decodeBE32, be32]
  omega

theorem netRecv_header {c0 : List Nat} {rest : List NetEvent} (h : 4 ≤ c0.length) :
    netRecv (.chunk c0 :: rest) 4 = (.bytes (c0.take 4), afterHeader c0 rest) := by
  unfold afterHeader
  by_cases hle : c0.length ≤ 4
  · rw [netRecv_chunk_le hle, if_pos hle, List.take_of_length_le hle]
  · rw [netRecv_chunk_gt (Nat.not_le.mp hle), if_neg hle]

theorem goodEvents_afterHeader {c0 : List Nat} {rest : List NetEvent}
    (h : 4 ≤ c0.length) (hg : goodEvents rest = true) :
    goodEvents (afterHeader c0 rest) = true := by
  unfold afterHeader
  by_cases hle : c0.length ≤ 4
  · rw [if_pos hle]; exact hg
  · rw [if_neg hle]
    refine goodEvents_cons_intro (goodEvent_chunk ?_) hg
    intro hnil
    rw [List.drop_eq_nil_iff] at hnil
    omega

theorem flattenEvents_afterHeader {c0 : List Nat} {rest : List NetEvent}
    (h : 4 ≤ c0.length) :
    flattenEvents (afterHeader c0 rest) = c0.drop 4 ++ flattenEvents rest := by
  unfold afterHeader
  by_cases hle : c0.length ≤ 4
  · rw [if_pos hle, List.drop_eq_nil_iff.mpr hle, List.nil_append]
  · rw [if_neg hle]; rfl

theorem length_take4 {c0 : List Nat} (h : 4 ≤ c0.length) : (c0.take 4).length = 4 := by
  rw [List.length_take]; omega

/-- Unfolding of `socket_get_image_data` once the connection phase has
succeeded. -/
theorem fetch_conn (env : Env) (h1 : env.socketOk = true) (h2 : env.addrOk = true)
    (h3 : env.connectOk = true) (h4 : env.sendOk = true) :
    socket_get_image_data false false env =
      match netRecv env.events 4 with
      | (.bytes hdr, evs₁) =>
          if hdr.length ≠ 4 then ⟨-1, [], none, 1, 1, evs₁⟩
          else if decodeBE32 hdr > IMAGE_BUFFER_SIZE then ⟨-1, [], none, 1, 1, evs₁⟩
          else
            let res := recvImageLoop evs₁ (decodeBE32 hdr) []
            if res.1 then ⟨0, res.2.1, some (decodeBE32 hdr), 1, 1, res.2.2⟩
            else ⟨-1, res.2.1, some (decodeBE32 hdr), 1, 1, res.2.2⟩
      | (.err, evs₁) => ⟨-1, [], none, 1, 1, evs₁⟩ := by
  simp [socket_get_image_data, h1, h2, h3, h4]

/-- Unfolding of `socket_get_image_data` when the first chunk carries
the whole header and the declared length fits the buffer. -/
theorem fetch_goodhead (env : Env) (c0 : List Nat) (rest : List NetEvent)
    (h1 : env.socketOk = true) (h2 : env.addrOk = true)
    (h3 : env.connectOk = true) (h4 : env.sendOk = true)
    (hev : env.events = .chunk c0 :: rest) (hc0 : 4 ≤ c0.length)
    (hcap : decodeBE32 (c0.take 4) ≤ IMAGE_BUFFER_SIZE) :
    socket_get_image_data false false env =
      (let res := recvImageLoop (afterHeader c0 rest) (decodeBE32 (c0.take 4)) []
       if res.1 then ⟨0, res.2.1, some (decodeBE32 (c0.take 4)), 1, 1, res.2.2⟩
       else ⟨-1, res.2.1, some (decodeBE32 (c0.take 4)), 1, 1, res.2.2⟩) := by
  rw [fetch_conn env h1 h2 h3 h4, hev, netRecv_header hc0]
  simp [length_take4 hc0, Nat.not_lt.mpr hcap]

/-- Success of the frame download implies the buffer holds exactly the
declared number of bytes. -/
theorem fetch_success_len (e : Env) (m : Nat)
    (hret : (socket_get_image_data false false e).ret = 0)
    (hsz : (socket_get_image_data false false e).dataSize = some m) :
    ((socket_get_image_data false false e).buf).length = m := by
  obtain ⟨so, ao, co, se, evs⟩ := e
  cases so
  · simp [socket_get_image_data] at hret
  cases ao
  · simp [socket_get_image_data] at hret
  cases co
  · simp [socket_get_image_data] at hret
  cases se
  · simp [socket_get_image_data] at hret
  rcases hnet : netRecv evs 4 with ⟨ro, evs₁⟩
  match ro with
  | .err => simp [socket_get_image_data, hnet] at hret
  | .bytes hdr =>
    by_cases hl : hdr.length = 4
    case neg => simp [socket_get_image_data, hnet, hl] at hret
    by_cases hcap : decodeBE32 hdr > IMAGE_BUFFER_SIZE
    · simp [socket_get_image_data, hnet, hl, hcap] at hret
    rcases hloop : recvImageLoop evs₁ (decodeBE32 hdr) [] with ⟨ok, buf1, evs₂⟩
    match ok with
    | false => simp [socket_get_image_data, hnet, hl, hcap, hloop] at hret
    | true =>
      have hx := recvImageLoop_exact (decodeBE32 hdr) evs₁ [] (by rw [hloop])
      rw [hloop] at hx
      simp only [List.length_nil, Nat.zero_add] at hx
      simp [socket_get_image_data, hnet, hl, hcap, hloop] at hsz ⊢
      omega

/-! ## Claim C1 -/

/-- C1 (refutation of the claim as stated): the peer sends exactly a
well-formed stream for a declared length of 1 byte (within capacity),
but fragments it so the 4-byte header spans two chunks; the single
4-byte header read returns only 2 bytes and the download fails, so the
download does not succeed under arbitrary fragmentation. -/
theorem fetch_fragmented_header_cex :
    (socket_get_image_data false false
      ⟨true, true, true, true, [.chunk [0, 0], .chunk [0, 1], .chunk [7]]⟩).ret = -1 ∧
    flattenEvents [NetEvent.chunk [0, 0], .chunk [0, 1], .chunk [7]] = be32 1 ++ [7] ∧
    goodEvents [NetEvent.chunk [0, 0], .chunk [0, 1], .chunk [7]] = true ∧
    1 ≤ IMAGE_BUFFER_SIZE := by
  refine ⟨?_, ?_, ?_, ?_⟩ <;> decide

/-- C1 (amended): for every declared frame length at most the
image-buffer capacity, if the peer's first chunk contains at least the
whole 4-byte header and the stream then delivers exactly the declared
number of frame bytes — fragmented into arbitrary nonempty chunks, each
read requesting at most 4096 bytes — then `socket_get_image_data`
succeeds, reports exactly the declared length, and the output buffer
equals the peer's frame bytes byte-for-byte. -/
theorem fetch_download_ok (env : Env) (n : Nat)
    (h1 : env.socketOk = true) (h2 : env.addrOk = true)
    (h3 : env.connectOk = true) (h4 : env.sendOk = true)
    (hgood : goodEvents env.events = true)
    (hhead : 4 ≤ headChunkLen env.events)
    (hlen : (flattenEvents env.events).length = 4 + n)
    (hhdr : (flattenEvents env.events).take 4 = be32 n)
    (hcap : n ≤ IMAGE_BUFFER_SIZE) :
    (socket_get_image_data false false env).ret = 0 ∧
    (socket_get_image_data false false env).dataSize = some n ∧
    (socket_get_image_data false false env).buf = (flattenEvents env.events).drop 4 := by
  obtain ⟨c0, rest, hev⟩ : ∃ c0 rest, env.events = .chunk c0 :: rest := by
    match h : env.events with
    | [] => rw [h] at hhead; simp [headChunkLen] at hhead
    | .close :: r => rw [h] at hhead; simp [headChunkLen] at hhead
    | .fail :: r => rw [h] at hhead; simp [headChunkLen] at hhead
    | .chunk c0 :: r => exact ⟨c0, r, rfl⟩
  have hc0 : 4 ≤ c0.length := by rw [hev] at hhead; simpa [headChunkLen] using hhead
  have hgrest : goodEvents rest = true := by
    rw [hev] at hgood; exact (goodEvents_cons hgood).2
  have hflev : flattenEvents env.events = c0 ++ flattenEvents rest := by rw [hev]; rfl
  have htk : c0.take 4 = be32 n := by
    rw [hflev, List.take_append_of_le_length hc0] at hhdr; exact hhdr
  have hdec : decodeBE32 (c0.take 4) = n := by
    rw [htk]
    refine decodeBE32_be32 ?_
    have : IMAGE_BUFFER_SIZE = 120000 := rfl
    omega
  have hcap' : decodeBE32 (c0.take 4) ≤ IMAGE_BUFFER_SIZE := by rw [hdec]; exact hcap
  have hflat : flattenEvents (afterHeader c0 rest) = c0.drop 4 ++ flattenEvents rest :=
    flattenEvents_afterHeader hc0
  have hlen4 : (c0.drop 4 ++ flattenEvents rest).length = n := by
    rw [List.length_append, List.length_drop]
    rw [hflev, List.length_append] at hlen
    omega
  have hlenA : n ≤ (flattenEvents (afterHeader c0 rest)).length := by
    rw [hflat, hlen4]
  rw [fetch_goodhead env c0 rest h1 h2 h3 h4 hev hc0 hcap', hdec]
  have hrec := recvImageLoop_complete n (afterHeader c0 rest) []
    (goodEvents_afterHeader hc0 hgrest) hlenA
  rcases hres : recvImageLoop (afterHeader c0 rest) n [] with ⟨ok, bf, ev2⟩
  rw [hres] at hrec
  obtain ⟨hok, hbf⟩ := hrec
  dsimp only at hok hbf
  rw [List.nil_append] at hbf
  simp only [hok, if_true]
  refine ⟨trivial, trivial, ?_⟩
  show bf = (flattenEvents env.events).drop 4
  rw [hbf, hflat, hflev, List.drop_append_of_le_length hc0,
    List.take_of_length_le (le_of_eq hlen4)]

/-- C1 (witness): a concrete run with declared length 2, the header and
the first frame byte in the first chunk, the second frame byte in its
own chunk. -/
theorem fetch_download_ok_witness :
    (socket_get_image_data false false
      ⟨true, true, true, true, [.chunk [0, 0, 0, 2, 9], .chunk [8]]⟩).ret = 0 ∧
    (socket_get_image_data false false
      ⟨true, true, true, true, [.chunk [0, 0, 0, 2, 9], .chunk [8]]⟩).dataSize = some 2 ∧
    (socket_get_image_data false false
      ⟨true, true, true, true, [.chunk [0, 0, 0, 2, 9], .chunk [8]]⟩).buf =
      (flattenEvents [NetEvent.chunk [0, 0, 0, 2, 9], .chunk [8]]).drop 4 :=
  fetch_download_ok ⟨true, true, true, true, [.chunk [0, 0, 0, 2, 9], .chunk [8]]⟩ 2
    rfl rfl rfl rfl (by decide) (by decide) (by decide) (by decide) (by decide)

/-! ## Claim C4 -/

/-- C4 (refutation of the claim as stated): the peer sends the reply in
two chunks; the command channel returns success after the first chunk
although the response buffer (1023 usable bytes) is far from full, the
peer has not yet closed the connection (a further chunk and the close
are still pending in the stream), and no timeout fired.  The read does
not continue until buffer-full, peer close, or timeout. -/
theorem cmd_single_read_cex :
    (socket_send_command false false 1024
      ⟨true, true, true, true, [.chunk [97, 98], .chunk [99, 100], .close]⟩).ret = 0 ∧
    (socket_send_command false false 1024
      ⟨true, true, true, true, [.chunk [97, 98], .chunk [99, 100], .close]⟩).response
      = [97, 98] ∧
    ((socket_send_command false false 1024
      ⟨true, true, true, true, [.chunk [97, 98], .chunk [99, 100], .close]⟩).response).length
      < 1024 - 1 ∧
    (socket_send_command false false 1024
      ⟨true, true, true, true, [.chunk [97, 98], .chunk [99, 100], .close]⟩).evsLeft
      = [.chunk [99, 100], .close] := by
  refine ⟨?_, ?_, ?_, ?_⟩ <;> decide

/-- C4 (amended): for every command, the command channel performs one
single receive of at most `respSize - 1` bytes and returns success with
whatever bytes that receive delivers; in particular a zero-byte receive
(peer-initiated orderly close) is success, not an error, while a
transport error or timeout fails the call.  The connection is closed
either way. -/
theorem cmd_channel_single_recv (env : Env) (respSize : Nat)
    (h1 : env.socketOk = true) (h2 : env.addrOk = true)
    (h3 : env.connectOk = true) (h4 : env.sendOk = true) (h5 : respSize ≠ 0) :
    (∀ (bs : List Nat) (evs' : List NetEvent),
      netRecv env.events (respSize - 1) = (.bytes bs, evs') →
      socket_send_command false false respSize env = ⟨0, bs, 1, 1, evs'⟩) ∧
    (∀ evs' : List NetEvent,
      netRecv env.events (respSize - 1) = (.err, evs') →
      socket_send_command false false respSize env = ⟨-1, [], 1, 1, evs'⟩) := by
  constructor
  · intro bs evs' h
    simp [socket_send_command, h1, h2, h3, h4, h5, h]
  · intro evs' h
    simp [socket_send_command, h1, h2, h3, h4, h5, h]

/-- C4 (witness): a zero-byte receive — an orderly close by the peer —
yields success with an empty response. -/
theorem cmd_channel_single_recv_witness :
    socket_send_command false false 1024 ⟨true, true, true, true, [.close]⟩ =
      ⟨0, [], 1, 1, []⟩ :=
  (cmd_channel_single_recv ⟨true, true, true, true, [.close]⟩ 1024
    rfl rfl rfl rfl (by decide)).1 [] [] rfl

/-! ## Claim C5 -/

/-- C5: when the decoded declared length exceeds the image-buffer
capacity, the download fails, no frame byte is written to the buffer,
the out-parameter is not written, the socket opened for the transfer is
closed, and exactly the 4 header bytes are consumed from the peer's
stream — no read beyond the header. -/
theorem fetch_too_large (env : Env) (c0 : List Nat) (rest : List NetEvent)
    (h1 : env.socketOk = true) (h2 : env.addrOk = true)
    (h3 : env.connectOk = true) (h4 : env.sendOk = true)
    (hev : env.events = .chunk c0 :: rest) (hc0 : 4 ≤ c0.length)
    (hbig : IMAGE_BUFFER_SIZE < decodeBE32 (c0.take 4)) :
    (socket_get_image_data false false env).ret = -1 ∧
    (socket_get_image_data false false env).buf = [] ∧
    (socket_get_image_data false false env).dataSize = none ∧
    (socket_get_image_data false false env).opened = 1 ∧
    (socket_get_image_data false false env).closed = 1 ∧
    flattenEvents ((socket_get_image_data false false env).evsLeft) =
      (flattenEvents env.events).drop 4 := by
  have hfl : flattenEvents (afterHeader c0 rest) = c0.drop 4 ++ flattenEvents rest :=
    flattenEvents_afterHeader hc0
  rw [fetch_conn env h1 h2 h3 h4, hev, netRecv_header hc0]
  simp only [length_take4 hc0, ne_eq, not_true_eq_false, if_false, gt_iff_lt, hbig, if_true]
  refine ⟨trivial, trivial, trivial, trivial, trivial, ?_⟩
  show flattenEvents (afterHeader c0 rest) = (flattenEvents (.chunk c0 :: rest)).drop 4
  rw [hfl, show flattenEvents (NetEvent.chunk c0 :: rest) = c0 ++ flattenEvents rest from rfl,
    List.drop_append_of_le_length hc0]

/-- C5 (witness): a declared length of 120001 (one above capacity) is
rejected with nothing read past the header. -/
theorem fetch_too_large_witness :
    (socket_get_image_data false false
      ⟨true, true, true, true, [.chunk [0, 1, 212, 193], .chunk [5]]⟩).ret = -1 ∧
    (socket_get_image_data false false
      ⟨true, true, true, true, [.chunk [0, 1, 212, 193], .chunk [5]]⟩).buf = [] ∧
    (socket_get_image_data false false
      ⟨true, true, true, true, [.chunk [0, 1, 212, 193], .chunk [5]]⟩).dataSize = none ∧
    (socket_get_image_data false false
      ⟨true, true, true, true, [.chunk [0, 1, 212, 193], .chunk [5]]⟩).opened = 1 ∧
    (socket_get_image_data false false
      ⟨true, true, true, true, [.chunk [0, 1, 212, 193], .chunk [5]]⟩).closed = 1 ∧
    flattenEvents ((socket_get_image_data false false
      ⟨true, true, true, true, [.chunk [0, 1, 212, 193], .chunk [5]]⟩).evsLeft) =
      (flattenEvents [NetEvent.chunk [0, 1, 212, 193], .chunk [5]]).drop 4 :=
  fetch_too_large ⟨true, true, true, true, [.chunk [0, 1, 212, 193], .chunk [5]]⟩
    [0, 1, 212, 193] [.chunk [5]] rfl rfl rfl rfl rfl (by decide) (by decide)

/-! ## Claims C6 and C10: truncated downloads -/

theorem afterHeader_append (c0 : List Nat) (a b : List NetEvent) :
    afterHeader c0 (a ++ b) = afterHeader c0 a ++ b := by
  unfold afterHeader
  split <;> simp

/-- Full characterisation of a truncated download: the peer delivers a
well-formed header (whole in the first chunk) for an in-capacity length
`n`, then fewer than `n` frame bytes, then closes or faults.  The
function fails, the out-parameter already holds `n`, and the buffer
holds exactly the frame bytes that did arrive. -/
theorem fetch_truncated_core (env : Env) (n : Nat)
    (pre post : List NetEvent) (bad : NetEvent)
    (h1 : env.socketOk = true) (h2 : env.addrOk = true)
    (h3 : env.connectOk = true) (h4 : env.sendOk = true)
    (hev : env.events = pre ++ bad :: post)
    (hbad : bad = .close ∨ bad = .fail)
    (hgood : goodEvents pre = true)
    (hhead : 4 ≤ headChunkLen pre)
    (hhdr : (flattenEvents pre).take 4 = be32 n)
    (hcap : n ≤ IMAGE_BUFFER_SIZE)
    (hlen : (flattenEvents pre).length < 4 + n) :
    socket_get_image_data false false env =
      ⟨-1, (flattenEvents pre).drop 4, some n, 1, 1, post⟩ := by
  obtain ⟨c0, pre', hpre⟩ : ∃ c0 pre', pre = .chunk c0 :: pre' := by
    match pre, hhead with
    | .chunk c0 :: r, _ => exact ⟨c0, r, rfl⟩
  subst hpre
  have hc0 : 4 ≤ c0.length := by simpa [headChunkLen] using hhead
  obtain ⟨hgc0, hgpre'⟩ := goodEvents_cons hgood
  have hflpre : flattenEvents (NetEvent.chunk c0 :: pre') = c0 ++ flattenEvents pre' := rfl
  have htk : c0.take 4 = be32 n := by
    rw [hflpre, List.take_append_of_le_length hc0] at hhdr; exact hhdr
  have hdec : decodeBE32 (c0.take 4) = n := by
    rw [htk]
    refine decodeBE32_be32 ?_
    have : IMAGE_BUFFER_SIZE = 120000 := rfl
    omega
  have hev' : env.events = .chunk c0 :: (pre' ++ bad :: post) := by
    rw [hev]; rfl
  have hcap' : decodeBE32 (c0.take 4) ≤ IMAGE_BUFFER_SIZE := by rw [hdec]; exact hcap
  rw [fetch_goodhead env c0 (pre' ++ bad :: post) h1 h2 h3 h4 hev' hc0 hcap', hdec]
  have hflA : flattenEvents (afterHeader c0 pre') = c0.drop 4 ++ flattenEvents pre' :=
    flattenEvents_afterHeader hc0
  have hlenA : (flattenEvents (afterHeader c0 pre')).length < n := by
    rw [hflA, List.length_append, List.length_drop]
    rw [hflpre, List.length_append] at hlen
    omega
  have htr := recvImageLoop_truncated n (afterHeader c0 pre') post bad []
    hbad (goodEvents_afterHeader hc0 hgpre') hlenA
  rw [afterHeader_append c0 pre' (bad :: post)] at *
  rw [htr]
  simp only [List.nil_append, if_neg (by simp : ¬((false : Bool) = true))]
  have hbuf : flattenEvents (afterHeader c0 pre') =
      (flattenEvents (NetEvent.chunk c0 :: pre')).drop 4 := by
    rw [hflA, hflpre, List.drop_append_of_le_length hc0]
  rw [hbuf]

/-- C6: if the peer closes the connection or a receive fails before the
declared number of frame bytes has been received, the download fails
for that attempt; and, in general, a successful download always holds
exactly the declared number of bytes — success with a partial frame is
impossible. -/
theorem fetch_truncated_no_success (env : Env) (n : Nat)
    (pre post : List NetEvent) (bad : NetEvent)
    (h1 : env.socketOk = true) (h2 : env.addrOk = true)
    (h3 : env.connectOk = true) (h4 : env.sendOk = true)
    (hev : env.events = pre ++ bad :: post)
    (hbad : bad = .close ∨ bad = .fail)
    (hgood : goodEvents pre = true)
    (hhead : 4 ≤ headChunkLen pre)
    (hhdr : (flattenEvents pre).take 4 = be32 n)
    (hcap : n ≤ IMAGE_BUFFER_SIZE)
    (hlen : (flattenEvents pre).length < 4 + n) :
    (socket_get_image_data false false env).ret = -1 ∧
    (∀ (e : Env) (m : Nat), (socket_get_image_data false false e).ret = 0 →
      (socket_get_image_data false false e).dataSize = some m →
      ((socket_get_image_data false false e).buf).length = m) := by
  refine ⟨?_, fun e m hr hs => fetch_success_len e m hr hs⟩
  rw [fetch_truncated_core env n pre post bad h1 h2 h3 h4 hev hbad hgood hhead hhdr hcap hlen]

/-- C6 (witness): header declares 2 bytes, only 1 arrives, then the
peer closes: the attempt fails. -/
theorem fetch_truncated_no_success_witness :
    (socket_get_image_data false false
      ⟨true, true, true, true, [.chunk [0, 0, 0, 2, 170], .close]⟩).ret = -1 :=
  (fetch_truncated_no_success ⟨true, true, true, true, [.chunk [0, 0, 0, 2, 170], .close]⟩ 2
    [.chunk [0, 0, 0, 2, 170]] [] .close rfl rfl rfl rfl rfl (Or.inl rfl)
    (by decide) (by decide) (by decide) (by decide) (by decide)).1

/-- C10: the declared length reaches the out-parameter before any frame
byte is received; consequently, on a download truncated mid-stream the
function fails with the out-parameter already holding the declared
length — strictly greater than the number of bytes actually received,
which is what the buffer holds. -/
theorem fetch_datasize_written_early (env : Env) (n : Nat)
    (pre post : List NetEvent) (bad : NetEvent)
    (h1 : env.socketOk = true) (h2 : env.addrOk = true)
    (h3 : env.connectOk = true) (h4 : env.sendOk = true)
    (hev : env.events = pre ++ bad :: post)
    (hbad : bad = .close ∨ bad = .fail)
    (hgood : goodEvents pre = true)
    (hhead : 4 ≤ headChunkLen pre)
    (hhdr : (flattenEvents pre).take 4 = be32 n)
    (hcap : n ≤ IMAGE_BUFFER_SIZE)
    (hlen : (flattenEvents pre).length < 4 + n) :
    (socket_get_image_data false false env).ret = -1 ∧
    (socket_get_image_data false false env).dataSize = some n ∧
    ((socket_get_image_data false false env).buf).length =
      (flattenEvents pre).length - 4 ∧
    ((socket_get_image_data false false env).buf).length < n := by
  rw [fetch_truncated_core env n pre post bad h1 h2 h3 h4 hev hbad hgood hhead hhdr hcap hlen]
  have h4le : 4 ≤ (flattenEvents pre).length := by
    obtain ⟨c0, pre', hpre⟩ : ∃ c0 pre', pre = .chunk c0 :: pre' := by
      match pre, hhead with
      | .chunk c0 :: r, _ => exact ⟨c0, r, rfl⟩
    have hc0 : 4 ≤ c0.length := by rw [hpre] at hhead; simpa [headChunkLen] using hhead
    rw [hpre, show flattenEvents (NetEvent.chunk c0 :: pre') = c0 ++ flattenEvents pre'
      from rfl, List.length_append]
    omega
  refine ⟨rfl, rfl, ?_, ?_⟩ <;> rw [List.length_drop] <;> omega

/-- C10 (witness): header declares 3 bytes, 2 arrive, then the
transport faults: the call fails with the out-parameter holding 3 and
two bytes in the buffer. -/
theorem fetch_datasize_written_early_witness :
    (socket_get_image_data false false
      ⟨true, true, true, true, [.chunk [0, 0, 0, 3, 1, 2], .fail]⟩).ret = -1 ∧
    (socket_get_image_data false false
      ⟨true, true, true, true, [.chunk [0, 0, 0, 3, 1, 2], .fail]⟩).dataSize = some 3 ∧
    ((socket_get_image_data false false
      ⟨true, true, true, true, [.chunk [0, 0, 0, 3, 1, 2], .fail]⟩).buf).length =
      (flattenEvents [NetEvent.chunk [0, 0, 0, 3, 1, 2]]).length - 4 ∧
    ((socket_get_image_data false false
      ⟨true, true, true, true, [.chunk [0, 0, 0, 3, 1, 2], .fail]⟩).buf).length < 3 :=
  fetch_datasize_written_early ⟨true, true, true, true, [.chunk [0, 0, 0, 3, 1, 2], .fail]⟩ 3
    [.chunk [0, 0, 0, 3, 1, 2]] [] .fail rfl rfl rfl rfl rfl (Or.inr rfl)
    (by decide) (by decide) (by decide) (by decide) (by decide)

/-! ## Claim C9 -/

theorem cmd_closed_eq_opened (cmdNull respNull : Bool) (respSize : Nat) (env : Env) :
    (socket_send_command cmdNull respNull respSize env).closed =
      (socket_send_command cmdNull respNull respSize env).opened ∧
    (socket_send_command cmdNull respNull respSize env).opened ≤ 1 := by
  obtain ⟨so, ao, co, se, evs⟩ := env
  rcases hnet : netRecv evs (respSize - 1) with ⟨ro, evs₂⟩
  by_cases hz : respSize = 0 <;>
    cases cmdNull <;> cases respNull <;> cases so <;> cases ao <;> cases co <;> cases se <;>
    rcases ro with bs | _ <;>
    simp [socket_send_command, hnet, hz]

theorem fetch_closed_eq_opened (dataNull sizeNull : Bool) (env : Env) :
    (socket_get_image_data dataNull sizeNull env).closed =
      (socket_get_image_data dataNull sizeNull env).opened ∧
    (socket_get_image_data dataNull sizeNull env).opened ≤ 1 := by
  obtain ⟨so, ao, co, se, evs⟩ := env
  rcases hnet : netRecv evs 4 with ⟨ro, evs₁⟩
  cases dataNull <;> cases sizeNull <;> cases so <;> cases ao <;> cases co <;> cases se <;>
    first
    | (simp [socket_get_image_data]; done)
    | (rcases ro with hdr | _
       · by_cases hl : hdr.length = 4
         · by_cases hcap : decodeBE32 hdr > IMAGE_BUFFER_SIZE
           · simp [socket_get_image_data, hnet, hl, hcap]
           · rcases hloop : recvImageLoop evs₁ (decodeBE32 hdr) [] with ⟨ok, bf, ev2⟩
             cases ok <;> simp [socket_get_image_data, hnet, hl, hcap, hloop]
         · simp [socket_get_image_data, hnet, hl]
       · simp [socket_get_image_data, hnet])

/-- C9: every socket successfully created by the command channel or by
the frame downloader is closed exactly once before the function
returns, on every exit path — success, error, or timeout: the number of
close calls always equals the number of sockets opened, and at most one
socket is ever opened per call. -/
theorem sockets_closed_once (cmdNull respNull : Bool) (respSize : Nat)
    (dataNull sizeNull : Bool) (env env' : Env) :
    (socket_send_command cmdNull respNull respSize env).closed =
      (socket_send_command cmdNull respNull respSize env).opened ∧
    (socket_send_command cmdNull respNull respSize env).opened ≤ 1 ∧
    (socket_get_image_data dataNull sizeNull env').closed =
      (socket_get_image_data dataNull sizeNull env').opened ∧
    (socket_get_image_data dataNull sizeNull env').opened ≤ 1 :=
  ⟨(cmd_closed_eq_opened cmdNull respNull respSize env).1,
   (cmd_closed_eq_opened cmdNull respNull respSize env).2,
   (fetch_closed_eq_opened dataNull sizeNull env').1,
   (fetch_closed_eq_opened dataNull sizeNull env').2⟩

/-! ## Claim C2 -/

/-- C2 (code defect): on a well-formed Info response the filename
extraction returns the literal marker token `filename`, not the value:
`strchr` starts at the marker's own opening quote, so `start` and `end`
are the two quotes of the `"filename"` token itself and the copied
substring is the eight characters between them.  (The copy is bounded,
so the destination buffer cannot overflow, but the extracted text is
never the filename value.) -/
theorem parse_filename_returns_marker_token :
    parse_filename ("a \"filename\" : \"sunset.bin\" z".toList) = "filename".toList ∧
    parse_filename ("a \"filename\" : \"sunset.bin\" z".toList) ≠ "sunset.bin".toList := by
  refine ⟨?_, ?_⟩ <;> decide

/-! ## Claim C7 -/

theorem isPrefixOf_append_self (l s : List Char) : l.isPrefixOf (l ++ s) = true := by
  induction l with
  | nil => simp [List.isPrefixOf]
  | cons c t ih => simpa [List.isPrefixOf] using ih

/-- `strstrIdx` finds the first occurrence: if the needle is not a
prefix of any earlier suffix but is one of the suffix at `k`, the
search returns `k`. -/
theorem strstrIdx_first (needle : List Char) :
    ∀ (text : List Char) (k : Nat),
      (∀ j, j < k → ¬ needle.isPrefixOf (text.drop j) = true) →
      needle.isPrefixOf (text.drop k) = true →
      strstrIdx needle text = some k := by
  intro text
  induction text with
  | nil =>
      intro k hbefore hk
      match k with
      | 0 => simpa [strstrIdx] using hk
      | k + 1 => exact absurd hk (hbefore 0 (by omega))
  | cons c t ih =>
      intro k hbefore hk
      match k with
      | 0 => simp only [strstrIdx, List.drop_zero] at hk ⊢; rw [if_pos hk]
      | k + 1 =>
          have hnot : ¬ needle.isPrefixOf (c :: t) = true := by
            have := hbefore 0 (by omega)
            simpa using this
          simp only [strstrIdx]
          rw [if_neg hnot]
          have hrec := ih k (fun j hj => hbefore (j + 1) (by omega)) hk
          rw [hrec]
          rfl

/-- C7: integer-field lookup in the sync loop.  First, if the quoted
field marker does not occur in the response text, the lookup reports
the field absent and the previous `g_image_total` value is kept — it is
never silently zeroed.  Second, whenever the text is any unrelated
prefix (containing no occurrence of the marker), then `"total" : 42`,
then any suffix not starting with a digit, the field resolves to 42 —
independent of where the field sits among other content. -/
theorem find_int_field_spec (text : List Char) (g : Int) :
    (strstrIdx totalMarker text = none →
      find_int_field text totalMarker = none ∧ update_g_total g text = g) ∧
    (∀ pre rest : List Char,
      text = pre ++ totalMarker ++ (' ' :: ':' :: ' ' :: '4' :: '2' :: rest) →
      (∀ j, j < pre.length → ¬ totalMarker.isPrefixOf (text.drop j) = true) →
      (rest.headD 'x').isDigit = false →
      find_int_field text totalMarker = some 42) := by
  constructor
  · intro habs
    constructor
    · simp only [find_int_field, habs]
    · simp only [update_g_total, find_int_field, habs]
  · intro pre rest htext hfirst hdig
    have htail : totalMarker ++ (' ' :: ':' :: ' ' :: '4' :: '2' :: rest) =
        totalMarker ++ (' ' :: ':' :: ' ' :: '4' :: '2' :: rest) := rfl
    have hdropPre : text.drop pre.length = totalMarker ++ (' ' :: ':' :: ' ' :: '4' :: '2' :: rest) := by
      rw [htext, List.append_assoc, List.drop_left]
    have hpref : totalMarker.isPrefixOf (text.drop pre.length) = true := by
      rw [hdropPre]
      exact isPrefixOf_append_self _ _
    have hss : strstrIdx totalMarker text = some pre.length :=
      strstrIdx_first totalMarker text pre.length hfirst hpref
    have htd : takeDigits rest = [] := by
      cases rest with
      | nil => rfl
      | cons c r =>
          have hc : c.isDigit = false := by simpa using hdig
          simp [takeDigits, hc]
    simp only [find_int_field, hss, hdropPre]
    simp only [sscanfFieldInt, isPrefixOf_append_self, if_true, List.drop_left]
    rw [show skipWs (' ' :: ':' :: ' ' :: '4' :: '2' :: rest) =
      ':' :: ' ' :: '4' :: '2' :: rest from rfl]
    show (if (':' : Char) = ':' then scanDecInt (skipWs (' ' :: '4' :: '2' :: rest))
      else none) = some 42
    rw [if_pos rfl]
    rw [show skipWs (' ' :: '4' :: '2' :: rest) = '4' :: '2' :: rest from rfl]
    have h42 : takeDigits ('4' :: '2' :: rest) = '4' :: '2' :: [] := by
      simp [takeDigits, htd, show ('4' : Char).isDigit = true from rfl,
        show ('2' : Char).isDigit = true from rfl]
    simp only [scanDecInt, h42]
    rw [if_neg (by decide), if_neg (by decide), if_neg (by decide)]
    decide

/-- C7 (witness): the total field resolves to 42 amid unrelated bytes,
and a marker-free text leaves the previous value 7 unchanged. -/
theorem find_int_field_spec_witness :
    find_int_field ("x \"total\" : 42!".toList) totalMarker = some 42 ∧
    update_g_total 7 ("hello".toList) = 7 :=
  ⟨(find_int_field_spec ("x \"total\" : 42!".toList) 7).2
      ("x ".toList) ("!".toList) (by decide) (by decide) (by decide),
   ((find_int_field_spec ("hello".toList) 7).1 (by decide)).2⟩

/-! ## Claim C3 -/

/-- C3 (refutation of the claim as stated): after a successful startup
wait, a link loss (the disconnect callback clears the connectivity
flags) does not make the next iteration return to an await-link state:
the iteration performs no link poll at all and immediately issues the
`update` command, which fails, and then sleeps. -/
theorem steady_state_no_repoll_cex :
    wifi_connect_wait [true] = 0 ∧
    wifi_event_callback .disconnected ⟨true, true⟩ = ⟨false, false⟩ ∧
    (cycle ⟨false, true, true, true, true⟩).trace =
      [.cmd "update", .delay LOOP_INTERVAL_MS] ∧
    Act.pollLink ∉ (cycle ⟨false, true, true, true, true⟩).trace := by
  refine ⟨?_, ?_, ?_, ?_⟩ <;> decide

/-- C3 (amended): link loss during steady-state operation never
terminates the process — the disconnect callback only clears the
connectivity flags, and every loop iteration, whatever combination of
steps fails, ends in the inter-cycle delay and continues — but the loop
does not return to an await-link state: no iteration polls the link
status before issuing commands; failed commands are simply retried on
later cycles. -/
theorem steady_state_link_loss (st : WifiFlags) (env : CycleEnv) :
    (wifi_event_callback .disconnected st).wifiConnected = false ∧
    (cycle env).exits = false ∧
    (cycle env).trace.getLast? = some (.delay LOOP_INTERVAL_MS) ∧
    Act.pollLink ∉ (cycle env).trace := by
  obtain ⟨u, i, a, f, d⟩ := env
  cases u <;> cases i <;> cases a <;> cases f <;> cases d <;>
    exact ⟨rfl, by decide, by decide, by decide⟩

/-! ## Claim C8 -/

/-- C8: in every cycle, whatever combination of steps fails, the
inter-cycle delay is reached exactly once and the loop body never
exits; a failing step skips all later steps of that cycle — in
particular a failed `update` means neither `info` nor `get_c` (nor the
display) is attempted that cycle. -/
theorem cycle_skip_to_delay (env : CycleEnv) :
    ((cycle env).trace.count (.delay LOOP_INTERVAL_MS) = 1) ∧
    (cycle env).exits = false ∧
    (env.updateOk = false →
      Act.cmd "info" ∉ (cycle env).trace ∧ Act.cmd "get_c" ∉ (cycle env).trace ∧
      Act.devInit ∉ (cycle env).trace ∧ Act.render ∉ (cycle env).trace) ∧
    (env.infoOk = false →
      Act.cmd "get_c" ∉ (cycle env).trace ∧ Act.devInit ∉ (cycle env).trace ∧
      Act.render ∉ (cycle env).trace) ∧
    (env.allocOk = false →
      Act.cmd "get_c" ∉ (cycle env).trace ∧ Act.devInit ∉ (cycle env).trace ∧
      Act.render ∉ (cycle env).trace) ∧
    (env.fetchOk = false →
      Act.devInit ∉ (cycle env).trace ∧ Act.render ∉ (cycle env).trace) ∧
    (env.devInitOk = false → Act.render ∉ (cycle env).trace) := by
  obtain ⟨u, i, a, f, d⟩ := env
  cases u <;> cases i <;> cases a <;> cases f <;> cases d <;> decide

/-- C8 (witness): with `update` failing, the cycle reaches the
inter-cycle delay exactly once and attempts neither `info` nor
`get_c`. -/
theorem cycle_skip_to_delay_witness :
    ((cycle ⟨false, true, true, true, true⟩).trace.count (.delay LOOP_INTERVAL_MS) = 1) ∧
    Act.cmd "info" ∉ (cycle ⟨false, true, true, true, true⟩).trace ∧
    Act.cmd "get_c" ∉ (cycle ⟨false, true, true, true, true⟩).trace :=
  ⟨(cycle_skip_to_delay ⟨false, true, true, true, true⟩).1,
   ((cycle_skip_to_delay ⟨false, true, true, true, true⟩).2.2.1 rfl).1,
   ((cycle_skip_to_delay ⟨false, true, true, true, true⟩).2.2.1 rfl).2.1⟩

end EPDAlbum
